import Mathlib

/-!
Verification development for the ConnectTool repository.

The peer-membership manager (`src/steam/steam_networking_manager.cpp`) is
embedded as a pure state machine over a `Manager` record.  External effects
(transport sends, session closes, observer callbacks) are recorded as an
ordered trace of events; each trace entry is tagged with whether the peers
mutex was held at the moment the source performs the call, transcribed from
the `lock_guard` scopes in the source.

The TUN device variants (`src/tun/tun_linux.cpp`, `src/tun/tun_macos.cpp`)
are embedded as pure functions of the device state together with the outcome
of the underlying OS call (`read`/`write`/`inet_pton`/`system`), which is an
external input to the repository's code.
-/

/-- Steam SDK send flag `k_nSteamNetworkingSend_Reliable` (steamnetworkingtypes.h). -/
def k_nSteamNetworkingSend_Reliable : Nat := 8

/-- Steam SDK send flag `k_nSteamNetworkingSend_AutoRestartBrokenSession`
(steamnetworkingtypes.h). -/
def k_nSteamNetworkingSend_AutoRestartBrokenSession : Nat := 32

/-- Steam SDK result code `k_EResultOK`. -/
def k_EResultOK : Nat := 1

/-- The single VPN channel id, `SteamNetworkingManager::VPN_CHANNEL = 0`
(steam_networking_manager.h line 74). -/
def VPN_CHANNEL : Nat := 0

/-- Modelled from the spec: the wire frame of `net/vpn_protocol.h` (absent from
src/): `type` is one byte, values 1=SESSION_HELLO, 2=IP_PACKET, 3=PING, 4=PONG. -/
def SESSION_HELLO : Nat := 1

/-- Modelled from the spec: serialisation of `VpnMessageHeader` from
`net/vpn_protocol.h` (absent from src/): offset 0 a `u8 type`, offset 1 a
`u16 length` in network byte order, 3 bytes in all. -/
def serializeVpnHeader (ty len : Nat) : List Nat :=
  [ty % 256, len / 256 % 256, len % 256]

/-- The SESSION_HELLO frame built in `addPeer` (steam_networking_manager.cpp
lines 191-193): `type = SESSION_HELLO`, `length = 0`. -/
def helloMsgBytes : List Nat := serializeVpnHeader SESSION_HELLO 0

/-- The flags used for SESSION_HELLO (steam_networking_manager.cpp line 199). -/
def helloFlags : Nat :=
  k_nSteamNetworkingSend_Reliable ||| k_nSteamNetworkingSend_AutoRestartBrokenSession

/-- An externally visible effect performed by the manager: a transport send
(`SendMessageToUser`), a transport session close (`CloseSessionWithUser`), or a
VPN-bridge observer callback (`onUserJoined` / `onUserLeft`). -/
inductive Event
  | send (peer : Nat) (data : List Nat) (flags : Nat) (channel : Nat)
  | closeSession (peer : Nat)
  | userJoined (peer : Nat)
  | userLeft (peer : Nat)
deriving DecidableEq, Repr

/-- A trace entry: the event together with whether `peersMutex_` was held when
the source performs the corresponding call. -/
structure LEvent where
  locked : Bool
  ev : Event
deriving DecidableEq, Repr

/-- The state of `SteamNetworkingManager` relevant to the membership claims:
the peer set `peers_` (a `std::set<CSteamID>`, modelled as a `Finset` of 64-bit
ids), the local identity `SteamUser()->GetSteamID()`, and whether
`m_pMessagesInterface` and `vpnBridge_` are non-null. -/
structure Manager where
  selfId : Nat
  peers : Finset Nat
  hasInterface : Bool
  hasBridge : Bool
deriving DecidableEq

/-- `SteamNetworkingManager::sendMessageToUser` (lines 152-161): no lock is
taken; if the interface is null it returns false, otherwise it sends on
`VPN_CHANNEL` and returns whether the transport result `res` is `k_EResultOK`.
The transport's result `res` is an external input. -/
def sendMessageToUser (m : Manager) (peerID : Nat) (data : List Nat)
    (flags : Nat) (res : Nat) : Bool × List LEvent :=
  if m.hasInterface then
    (res == k_EResultOK, [⟨false, .send peerID data flags VPN_CHANNEL⟩])
  else
    (false, [])

/-- `SteamNetworkingManager::broadcastMessage` (lines 163-173): returns early
if the interface is null; otherwise, holding `peersMutex_`, sends to every
peer in `std::set` (ascending) order on `VPN_CHANNEL`. -/
def broadcastMessage (m : Manager) (data : List Nat) (flags : Nat) :
    List LEvent :=
  if m.hasInterface then
    (m.peers.sort (· ≤ ·)).map (fun q => ⟨true, .send q data flags VPN_CHANNEL⟩)
  else
    []

/-- `SteamNetworkingManager::addPeer` (lines 175-214): returns at once when the
id is the local identity; inserts under the mutex; when the insertion created a
new entry, sends SESSION_HELLO (outside the lock) with
`Reliable | AutoRestartBrokenSession` on `VPN_CHANNEL` and then notifies the
bridge's `onUserJoined` when a bridge is set. -/
def addPeer (m : Manager) (peerID : Nat) : Manager × List LEvent :=
  if peerID = m.selfId then (m, [])
  else
    let isNewPeer := peerID ∉ m.peers
    let m' := { m with peers := insert peerID m.peers }
    if isNewPeer then
      (m', ⟨false, .send peerID helloMsgBytes helloFlags VPN_CHANNEL⟩ ::
            (if m.hasBridge then [⟨false, .userJoined peerID⟩] else []))
    else
      (m', [])

/-- `SteamNetworkingManager::removePeer` (lines 216-234): the whole body runs
under `peersMutex_`; when `erase` removed an entry, closes the session (if the
interface is set) and fires `onUserLeft` (if a bridge is set), both while the
mutex is held. -/
def removePeer (m : Manager) (peerID : Nat) : Manager × List LEvent :=
  if peerID ∈ m.peers then
    ({ m with peers := m.peers.erase peerID },
      (if m.hasInterface then [⟨true, .closeSession peerID⟩] else []) ++
      (if m.hasBridge then [⟨true, .userLeft peerID⟩] else []))
  else
    (m, [])

/-- `SteamNetworkingManager::clearPeers` (lines 236-252): holding
`peersMutex_`, for each peer in `std::set` (ascending) order closes its session
(if the interface is set) and fires `onUserLeft` (if a bridge is set), then
empties the set. -/
def clearPeers (m : Manager) : Manager × List LEvent :=
  ({ m with peers := ∅ },
    (m.peers.sort (· ≤ ·)).flatMap (fun q =>
      (if m.hasInterface then [⟨true, .closeSession q⟩] else []) ++
      (if m.hasBridge then [⟨true, .userLeft q⟩] else [])))

/-- Predicate: the event is a transport call (send or session close), i.e.
I/O toward the transport, as opposed to an observer callback. -/
def isTransportCall : Event → Bool
  | .send _ _ _ _ => true
  | .closeSession _ => true
  | _ => false

/-- Whether some transport call in the trace happens while the registry mutex
is held. -/
def ioUnderLock (tr : List LEvent) : Bool :=
  tr.any (fun e => e.locked && isTransportCall e.ev)

/-- The peers targeted by send events of a trace, in order. -/
def sendTargets (tr : List LEvent) : List Nat :=
  tr.filterMap (fun e =>
    match e.ev with
    | .send q _ _ _ => some q
    | _ => none)

/-- An operation of the manager's control surface, used to quantify over call
sequences.  A `sendToOp`'s transport result does not influence the trace, so it
is omitted. -/
inductive Op
  | addPeerOp (p : Nat)
  | removePeerOp (p : Nat)
  | clearPeersOp
  | broadcastOp (data : List Nat) (flags : Nat)
  | sendToOp (p : Nat) (data : List Nat) (flags : Nat)
deriving DecidableEq, Repr

/-- One step of the manager: dispatch an operation, yielding the new state and
the trace of effects. -/
def step (m : Manager) : Op → Manager × List LEvent
  | .addPeerOp p => addPeer m p
  | .removePeerOp p => removePeer m p
  | .clearPeersOp => clearPeers m
  | .broadcastOp d f => (m, broadcastMessage m d f)
  | .sendToOp p d f => (m, (sendMessageToUser m p d f k_EResultOK).2)

/-- Run a sequence of operations, concatenating the traces. -/
def run (m : Manager) : List Op → Manager × List LEvent
  | [] => (m, [])
  | op :: ops =>
    let s := step m op
    let r := run s.1 ops
    (r.1, s.2 ++ r.2)

/-- An operation neither re-adds peer `p` nor addresses `p` directly through
`sendMessageToUser`. -/
def avoidsPeer (p : Nat) : Op → Bool
  | .addPeerOp q => q != p
  | .sendToOp q _ _ => q != p
  | _ => true

/-! ## Poll engine

`steam_message_handler.h` (lines 54-56) fixes the poll policy constants; the
body of `SteamMessageHandler::pollMessages` lives in
`steam_message_handler.cpp`, which is not part of src/. -/

/-- `SteamMessageHandler::MIN_POLL_INTERVAL` = 100 µs
(steam_message_handler.h line 54). -/
def MIN_POLL_INTERVAL : Nat := 100

/-- `SteamMessageHandler::MAX_POLL_INTERVAL` = 1000 µs
(steam_message_handler.h line 55). -/
def MAX_POLL_INTERVAL : Nat := 1000

/-- `SteamMessageHandler::POLL_INCREMENT` = 100 µs
(steam_message_handler.h line 56). -/
def POLL_INCREMENT : Nat := 100

/-- Modelled from the spec: the interval update of one drain tick of
`SteamMessageHandler::pollMessages`, whose body (steam_message_handler.cpp) is
absent from src/.  Spec §4.4: if at least one message was received, the
interval collapses to the minimum; on an empty drain it backs off by the
increment, capped at the maximum. -/
def pollTick (interval : Nat) (msgs : Nat) : Nat :=
  if 0 < msgs then MIN_POLL_INTERVAL
  else Nat.min (interval + POLL_INCREMENT) MAX_POLL_INTERVAL

/-- The interval after a sequence of drain ticks, each draining the given
number of messages. -/
def runPolls (interval : Nat) (batches : List Nat) : Nat :=
  batches.foldl pollTick interval

/-! ## TUN devices

The TUN variants call into the kernel (`::read`, `::write`), libc
(`inet_pton`) and the shell (`system`); the outcome of each such external call
is an input to the embedded function. -/

/-- Outcome of the underlying `::read` call: the bytes it placed in the buffer,
a would-block errno (`EAGAIN`/`EWOULDBLOCK`), or a hard errno. -/
inductive OsRead
  | ok (bytes : List Nat)
  | wouldBlock
  | hardErr
deriving DecidableEq, Repr

/-- Outcome of the underlying `::write` call: the byte count it reported, a
would-block errno, or a hard errno. -/
inductive OsWrite
  | ok (n : Nat)
  | wouldBlock
  | hardErr
deriving DecidableEq, Repr

/-- `TunLinux::read` (tun_linux.cpp lines 159-175): -1 when the device is not
open; `::read` straight into the caller's buffer; 0 on would-block, -1 on hard
error, otherwise the byte count, the buffer holding the datagram unchanged. -/
def TunLinux.read (isOpen : Bool) (os : OsRead) : Int × List Nat :=
  if isOpen then
    match os with
    | .ok bytes => ((bytes.length : Int), bytes)
    | .wouldBlock => (0, [])
    | .hardErr => (-1, [])
  else
    (-1, [])

/-- `TunMacOS::read` (tun_macos.cpp lines 210-246): -1 when the device is not
open; reads into a 65536-byte stack buffer (requesting `min (size+4) 65536`
bytes); 0 on would-block, -1 on hard error; a datagram of 4 bytes or fewer
yields 0; otherwise the 4-byte protocol-family prefix is dropped and the
payload copied, truncated to the caller's buffer size `size`. -/
def TunMacOS.read (isOpen : Bool) (size : Nat) (os : OsRead) :
    Int × List Nat :=
  if isOpen then
    match os with
    | .ok bytes =>
      if bytes.length ≤ 4 then (0, [])
      else
        let payload := (bytes.drop 4).take size
        ((payload.length : Int), payload)
    | .wouldBlock => (0, [])
    | .hardErr => (-1, [])
  else
    (-1, [])

/-- macOS `htonl(AF_INET)` as bytes: network byte order of 2. -/
def afInetBytes : List Nat := [0, 0, 0, 2]

/-- macOS `htonl(AF_INET6)` as bytes: network byte order of 30. -/
def afInet6Bytes : List Nat := [0, 0, 0, 30]

/-- The protocol-family header `TunMacOS::write` prepends (tun_macos.cpp lines
261-268): IP version nibble 4 gives AF_INET, 6 gives AF_INET6, anything else
(including an empty packet) defaults to AF_INET. -/
def afHeader (buf : List Nat) : List Nat :=
  match buf with
  | [] => afInetBytes
  | b :: _ =>
    if b >>> 4 = 4 then afInetBytes
    else if b >>> 4 = 6 then afInet6Bytes
    else afInetBytes

/-- `TunMacOS::write` (tun_macos.cpp lines 248-289): -1 when not open; when
the packet plus the 4-byte family header exceeds the 65536-byte stack buffer,
records "Packet too large" and returns -1 without writing; otherwise hands the
framed packet to `::write` and reports 0 on would-block, -1 on hard error, and
the count minus the 4 header bytes (never negative) on success.  Returns
(return value, frame passed to `::write` if any, error recorded if any). -/
def TunMacOS.write (isOpen : Bool) (buf : List Nat) (os : OsWrite) :
    Int × Option (List Nat) × Option String :=
  if isOpen then
    if buf.length + 4 > 65536 then
      (-1, none, some "Packet too large")
    else
      let frame := afHeader buf ++ buf
      match os with
      | .ok n => (if n ≤ 4 then 0 else ((n - 4 : Nat) : Int), some frame, none)
      | .wouldBlock => (0, some frame, none)
      | .hardErr => (-1, some frame, some "write failed")
  else
    (-1, none, none)

/-- The leading-ones loop of `netmaskToPrefixLength` (tun_linux.cpp lines
89-95, tun_macos.cpp lines 92-98): `while (mask & 0x80000000) { prefix++;
mask <<= 1; }` on a 32-bit mask; the loop runs at most 32 times, so fuel 32
reproduces it exactly. -/
def countLeadingOnes : Nat → Nat → Nat
  | 0, _ => 0
  | fuel + 1, mask =>
    if mask &&& 0x80000000 ≠ 0 then
      countLeadingOnes fuel ((mask <<< 1) % 2 ^ 32) + 1
    else 0

/-- `TunLinux::netmaskToPrefixLength` (tun_linux.cpp lines 83-96): when
`inet_pton` rejects the netmask string the default 24 is returned; otherwise
the number of leading one bits of the host-order mask.  `parsed` is the
outcome of the external `inet_pton`+`ntohl` pair: the host-order 32-bit value,
or `none` on parse failure. -/
def TunLinux.netmaskToPrefixLength (parsed : Option Nat) : Nat :=
  match parsed with
  | none => 24
  | some mask => countLeadingOnes 32 (mask % 2 ^ 32)

/-- `TunMacOS::netmaskToPrefixLength` (tun_macos.cpp lines 86-99): identical
to the Linux variant. -/
def TunMacOS.netmaskToPrefixLength (parsed : Option Nat) : Nat :=
  match parsed with
  | none => 24
  | some mask => countLeadingOnes 32 (mask % 2 ^ 32)

/-- `TunLinux::set_ip` (tun_linux.cpp lines 199-233): fails when the device is
closed or unnamed, or when `inet_pton` rejects the IP; otherwise converts the
netmask (default 24 on parse failure) and runs `ip addr add`, retrying once
after a flush.  `addCmd`/`retryCmd` are the exit codes of the external
commands.  Returns (success, the prefix length used if reached). -/
def TunLinux.set_ip (isOpen : Bool) (devName : String)
    (ipParsed maskParsed : Option Nat) (addCmd retryCmd : Int) :
    Bool × Option Nat :=
  if isOpen = false ∨ devName = "" then (false, none)
  else
    match ipParsed with
    | none => (false, none)
    | some _ =>
      let prefixLength := TunLinux.netmaskToPrefixLength maskParsed
      if addCmd = 0 then (true, some prefixLength)
      else if retryCmd = 0 then (true, some prefixLength)
      else (false, some prefixLength)

/-- `TunMacOS::set_ip` (tun_macos.cpp lines 295-338): fails when the device is
closed or unnamed, or when `inet_pton` rejects the IP; otherwise converts the
netmask (default 24 on parse failure), computes the point-to-point peer
address (network+1, or network+2 when that is the local address) and runs a
single `ifconfig` command.  Returns (success, prefix length used if reached,
peer address computed if reached). -/
def TunMacOS.set_ip (isOpen : Bool) (devName : String)
    (ipParsed maskParsed : Option Nat) (cmdRes : Int) :
    Bool × Option Nat × Option Nat :=
  if isOpen = false ∨ devName = "" then (false, none, none)
  else
    match ipParsed with
    | none => (false, none, none)
    | some ipAddr =>
      let prefixLength := TunMacOS.netmaskToPrefixLength maskParsed
      let mask := (0xFFFFFFFF <<< (32 - prefixLength)) % 2 ^ 32
      let network := ipAddr &&& mask
      let peerAddr := if (network ||| 1) = ipAddr then network ||| 2
                      else network ||| 1
      if cmdRes = 0 then (true, some prefixLength, some peerAddr)
      else (false, some prefixLength, some peerAddr)

/-- The send events of a trace, in order: (peer, bytes, flags, channel). -/
def sendEvents (tr : List LEvent) : List (Nat × List Nat × Nat × Nat) :=
  tr.filterMap (fun e =>
    match e.ev with
    | .send q d f c => some (q, d, f, c)
    | _ => none)

/-- Membership in the send targets of a trace, characterised by the events. -/
lemma mem_sendTargets {x : Nat} {tr : List LEvent} :
    x ∈ sendTargets tr ↔ ∃ e ∈ tr, ∃ d f c, e.ev = Event.send x d f c := by
  simp only [sendTargets, List.mem_filterMap]
  constructor
  · rintro ⟨e, he, hm⟩
    refine ⟨e, he, ?_⟩
    cases hev : e.ev with
    | send q d f c =>
      rw [hev] at hm
      simp only [Option.some.injEq] at hm
      exact ⟨d, f, c, by rw [hm]⟩
    | closeSession q => rw [hev] at hm; simp at hm
    | userJoined q => rw [hev] at hm; simp at hm
    | userLeft q => rw [hev] at hm; simp at hm
  · rintro ⟨e, he, d, f, c, hev⟩
    exact ⟨e, he, by rw [hev]⟩

/-- Send targets distribute over trace concatenation. -/
lemma sendTargets_append (a b : List LEvent) :
    sendTargets (a ++ b) = sendTargets a ++ sendTargets b := by
  simp [sendTargets, List.filterMap_append]

/-- removePeer emits only close-session and observer events, never a send. -/
lemma removePeer_no_send (m : Manager) (q x : Nat) :
    x ∉ sendTargets (removePeer m q).2 := by
  rw [mem_sendTargets]
  rintro ⟨e, he, d, f, c, hev⟩
  by_cases hq : q ∈ m.peers
  · simp [removePeer, hq] at he
    rcases he with ⟨-, rfl⟩ | ⟨-, rfl⟩ <;> simp at hev
  · simp [removePeer, hq] at he

/-- clearPeers emits only close-session and observer events, never a send. -/
lemma clearPeers_no_send (m : Manager) (x : Nat) :
    x ∉ sendTargets (clearPeers m).2 := by
  rw [mem_sendTargets]
  rintro ⟨e, he, d, f, c, hev⟩
  simp [clearPeers] at he
  rcases he with ⟨q, -, ⟨-, rfl⟩ | ⟨-, rfl⟩⟩ <;> simp at hev

/-- Every broadcast send targets a currently registered peer. -/
lemma broadcast_target_mem (m : Manager) (d : List Nat) (f x : Nat)
    (hx : x ∈ sendTargets (broadcastMessage m d f)) : x ∈ m.peers := by
  rw [mem_sendTargets] at hx
  rcases hx with ⟨e, he, d', f', c', hev⟩
  unfold broadcastMessage at he
  split at he
  · rcases List.mem_map.mp he with ⟨q, hq, rfl⟩
    have hq' : q ∈ m.peers := (Finset.mem_sort (α := Nat) (· ≤ ·)).mp hq
    injection hev with h1 h2 h3 h4
    exact h1 ▸ hq'
  · simp at he

/-- Every send of addPeer targets the added peer itself. -/
lemma addPeer_target_eq (m : Manager) (q x : Nat)
    (hx : x ∈ sendTargets (addPeer m q).2) : x = q := by
  rw [mem_sendTargets] at hx
  rcases hx with ⟨e, he, d', f', c', hev⟩
  by_cases hs : q = m.selfId
  · simp [addPeer, hs] at he
  · by_cases hq : q ∈ m.peers
    · simp [addPeer, hs, hq] at he
    · simp [addPeer, hs, hq] at he
      rcases he with rfl | ⟨-, rfl⟩
      · injection hev with h1 h2 h3 h4
        exact h1.symm
      · simp at hev

/-- Every send of sendMessageToUser targets the addressed peer itself. -/
lemma sendMessageToUser_target_eq (m : Manager) (q : Nat) (d : List Nat)
    (f r x : Nat) (hx : x ∈ sendTargets (sendMessageToUser m q d f r).2) :
    x = q := by
  rw [mem_sendTargets] at hx
  rcases hx with ⟨e, he, d', f', c', hev⟩
  by_cases hi : m.hasInterface = true
  · simp [sendMessageToUser, hi] at he
    subst he
    injection hev with h1 h2 h3 h4
    exact h1.symm
  · simp [sendMessageToUser, hi] at he

/-- A single operation that neither re-adds nor directly addresses `p` keeps
`p` out of the registry and sends nothing to `p`. -/
lemma step_preserves (m : Manager) (op : Op) (p : Nat)
    (hp : p ∉ m.peers) (hop : avoidsPeer p op = true) :
    p ∉ (step m op).1.peers ∧ p ∉ sendTargets (step m op).2 := by
  cases op with
  | addPeerOp q =>
    have hqp : q ≠ p := by simpa [avoidsPeer] using hop
    constructor
    · show p ∉ (addPeer m q).1.peers
      have hins : p ∉ insert q m.peers := by
        rw [Finset.mem_insert]
        rintro (rfl | h)
        · exact hqp rfl
        · exact hp h
      by_cases hs : q = m.selfId
      · simpa [addPeer, hs] using hp
      · by_cases hq : q ∈ m.peers <;> simpa [addPeer, hs, hq] using hins
    · intro hx
      exact hqp ((addPeer_target_eq m q p hx).symm)
  | removePeerOp q =>
    refine ⟨?_, removePeer_no_send m q p⟩
    show p ∉ (removePeer m q).1.peers
    unfold removePeer
    split
    · simp only [Finset.mem_erase]
      rintro ⟨-, h⟩
      exact hp h
    · exact hp
  | clearPeersOp =>
    exact ⟨by simp [step, clearPeers], clearPeers_no_send m p⟩
  | broadcastOp d f =>
    exact ⟨hp, fun hx => hp (broadcast_target_mem m d f p hx)⟩
  | sendToOp q d f =>
    have hqp : q ≠ p := by simpa [avoidsPeer] using hop
    exact ⟨hp, fun hx => hqp (sendMessageToUser_target_eq m q d f _ p hx).symm⟩

/-- Running any sequence of operations that never re-adds `p` and never
directly addresses `p` keeps `p` out of the registry and out of every send
target. -/
lemma run_preserves (ops : List Op) (m : Manager) (p : Nat)
    (hp : p ∉ m.peers) (hops : ops.all (avoidsPeer p) = true) :
    p ∉ (run m ops).1.peers ∧ p ∉ sendTargets (run m ops).2 := by
  induction ops generalizing m with
  | nil => exact ⟨hp, by simp [run, sendTargets]⟩
  | cons op rest ih =>
    rw [List.all_cons, Bool.and_eq_true] at hops
    have h1 := step_preserves m op p hp hops.1
    have h2 := ih (step m op).1 h1.1 hops.2
    refine ⟨h2.1, ?_⟩
    show p ∉ sendTargets ((step m op).2 ++ (run (step m op).1 rest).2)
    rw [sendTargets_append, List.mem_append]
    rintro (h | h)
    · exact h1.2 h
    · exact h2.2 h

/-- Counterexample to claim C2 as stated: with self 101 and registry {202},
after removePeer(202) returns (202 is gone from the registry), a subsequent
egress send operation — sendMessageToUser, which never consults the registry —
still delivers a frame addressed to 202, with no intervening addPeer(202). -/
theorem sendMessageToUser_after_removePeer_still_targets_peer :
    202 ∉ (removePeer ⟨101, {202}, true, true⟩ 202).1.peers ∧
    sendTargets (run (removePeer ⟨101, {202}, true, true⟩ 202).1
      [Op.sendToOp 202 [1, 2, 3] 0]).2 = [202] := by decide

/-- Claim C2 (amended): for every peer p, after removePeer(p) returns, no
subsequent operation of the control surface delivers a frame addressed to p
until a new addPeer(p) — provided no direct sendMessageToUser(p) is issued,
since sendMessageToUser does not consult the registry; in particular every
broadcastMessage frame avoids p, and p stays out of the registry. -/
theorem removePeer_blocks_registry_sends (m : Manager) (p : Nat)
    (ops : List Op) (hops : ops.all (avoidsPeer p) = true) :
    p ∉ (run (removePeer m p).1 ops).1.peers ∧
    p ∉ sendTargets (run (removePeer m p).1 ops).2 := by
  have hp : p ∉ (removePeer m p).1.peers := by
    unfold removePeer
    split
    · simp [Finset.mem_erase]
    · next h => exact h
  exact run_preserves ops _ p hp hops

/-- Witness for C2 at self 101, registry {202, 303}, removing 202 and then
broadcasting, sending to 303, and adding 404. -/
theorem removePeer_blocks_registry_sends_witness :
    ([Op.broadcastOp [9] 0, Op.sendToOp 303 [9] 0,
        Op.addPeerOp 404] : List Op).all (avoidsPeer 202) = true ∧
    (202 ∉ (run (removePeer ⟨101, {202, 303}, true, true⟩ 202).1
        [Op.broadcastOp [9] 0, Op.sendToOp 303 [9] 0,
          Op.addPeerOp 404]).1.peers ∧
      202 ∉ sendTargets (run (removePeer ⟨101, {202, 303}, true, true⟩ 202).1
        [Op.broadcastOp [9] 0, Op.sendToOp 303 [9] 0,
          Op.addPeerOp 404]).2) :=
  ⟨by decide,
    removePeer_blocks_registry_sends ⟨101, {202, 303}, true, true⟩ 202
      [Op.broadcastOp [9] 0, Op.sendToOp 303 [9] 0, Op.addPeerOp 404]
      (by decide)⟩

/-- Counterexample to claim C4 as stated: with self 101, registry {202} and
the transport interface set, removePeer performs its CloseSessionWithUser
call, broadcastMessage its SendMessageToUser call, and clearPeers its
CloseSessionWithUser call, all while the registry mutex is held. -/
theorem transport_calls_happen_under_lock :
    ioUnderLock (removePeer ⟨101, {202}, true, true⟩ 202).2 = true ∧
    ioUnderLock (broadcastMessage ⟨101, {202}, true, true⟩ [9] 0) = true ∧
    ioUnderLock (clearPeers ⟨101, {202}, true, true⟩).2 = true := by
  refine ⟨by decide, ?_, ?_⟩
  · simp [broadcastMessage, ioUnderLock, Finset.sort_singleton, isTransportCall]
  · simp [clearPeers, ioUnderLock, Finset.sort_singleton, isTransportCall]

/-- Claim C4 (amended): addPeer performs no transport I/O (send or session
close) while the registry mutex is held — its SESSION_HELLO goes out after the
lock is released — but removePeer, clearPeers and broadcastMessage each do
perform a transport send or session-close call inside their critical section
whenever the interface is set and a peer is registered. -/
theorem locking_discipline (m : Manager) (q p : Nat) (d : List Nat) (f : Nat)
    (hi : m.hasInterface = true) (hp : p ∈ m.peers) :
    ioUnderLock (addPeer m q).2 = false ∧
    ioUnderLock (removePeer m p).2 = true ∧
    ioUnderLock (clearPeers m).2 = true ∧
    ioUnderLock (broadcastMessage m d f) = true := by
  refine ⟨?_, ?_, ?_, ?_⟩
  · by_cases hs : q = m.selfId
    · simp [addPeer, hs, ioUnderLock]
    · by_cases hq : q ∈ m.peers <;>
        cases hb : m.hasBridge <;>
        simp [addPeer, hs, hq, hb, ioUnderLock, isTransportCall]
  · simp [removePeer, hp, hi, ioUnderLock, isTransportCall]
  · rw [ioUnderLock, List.any_eq_true]
    refine ⟨⟨true, .closeSession p⟩, ?_, rfl⟩
    simp only [clearPeers, List.mem_flatMap]
    exact ⟨p, (Finset.mem_sort (α := Nat) (· ≤ ·)).mpr hp,
      by simp [hi]⟩
  · rw [ioUnderLock, List.any_eq_true]
    refine ⟨⟨true, .send p d f VPN_CHANNEL⟩, ?_, rfl⟩
    unfold broadcastMessage
    rw [if_pos hi]
    exact List.mem_map.mpr ⟨p, (Finset.mem_sort (α := Nat) (· ≤ ·)).mpr hp, rfl⟩

/-- Witness for C4 (amended) at self 101, registry {202}, probing addPeer(7)
and a broadcast of one byte. -/
theorem locking_discipline_witness :
    ioUnderLock (addPeer ⟨101, {202}, true, true⟩ 7).2 = false ∧
    ioUnderLock (removePeer ⟨101, {202}, true, true⟩ 202).2 = true ∧
    ioUnderLock (clearPeers ⟨101, {202}, true, true⟩).2 = true ∧
    ioUnderLock (broadcastMessage ⟨101, {202}, true, true⟩ [9] 0) = true :=
  locking_discipline ⟨101, {202}, true, true⟩ 7 202 [9] 0 rfl (by decide)

/-- Claim C1: invoking addPeer with a peer id not yet in the registry and not
equal to self sends exactly one outbound SESSION_HELLO frame of bytes
`01 00 00` (type 1, length 0) to that peer, with the reliable and
auto-restart-broken-session flags, on channel 0. -/
theorem addPeer_emits_one_session_hello (m : Manager) (p : Nat)
    (hself : p ≠ m.selfId) (hnew : p ∉ m.peers) :
    sendEvents (addPeer m p).2 = [(p, [1, 0, 0], helloFlags, 0)] ∧
    helloMsgBytes = [1, 0, 0] ∧
    helloFlags = k_nSteamNetworkingSend_Reliable |||
      k_nSteamNetworkingSend_AutoRestartBrokenSession ∧
    VPN_CHANNEL = 0 := by
  refine ⟨?_, by decide, rfl, rfl⟩
  cases hb : m.hasBridge <;>
    simp [addPeer, sendEvents, hself, hnew, hb, helloMsgBytes,
      serializeVpnHeader, SESSION_HELLO, VPN_CHANNEL]

/-- Witness for C1 at self 101, empty registry, peer 202. -/
theorem addPeer_emits_one_session_hello_witness :
    sendEvents (addPeer ⟨101, ∅, true, true⟩ 202).2 =
      [(202, [1, 0, 0], helloFlags, 0)] :=
  (addPeer_emits_one_session_hello ⟨101, ∅, true, true⟩ 202
    (by decide) (by decide)).1

/-- Claim C3: addPeer twice leaves the registry as addPeer once does — the
second call changes no state and emits no event (no SESSION_HELLO, no
onUserJoined) — and addPeer of the local identity is rejected, leaving state
and trace untouched. -/
theorem addPeer_idempotent_and_rejects_self (m : Manager) (p : Nat) :
    (addPeer (addPeer m p).1 p).1 = (addPeer m p).1 ∧
    (addPeer (addPeer m p).1 p).2 = [] ∧
    addPeer m m.selfId = (m, []) := by
  refine ⟨?_, ?_, by simp [addPeer]⟩ <;>
  · by_cases hs : p = m.selfId
    · simp [addPeer, hs]
    · by_cases hp : p ∈ m.peers <;>
        simp [addPeer, hs, hp, Finset.insert_idem, Finset.insert_eq_self.mpr]

/-- Claim C6: the poll interval of the drain loop stays within
`[MIN_POLL_INTERVAL, MAX_POLL_INTERVAL]` at every point of any sequence of
drains, and the configured bounds are 100 µs, 1000 µs (1 ms) and a 100 µs
increment. -/
theorem pollInterval_bounded (i k : Nat) (batches : List Nat)
    (h1 : MIN_POLL_INTERVAL ≤ i) (h2 : i ≤ MAX_POLL_INTERVAL) :
    MIN_POLL_INTERVAL = 100 ∧ MAX_POLL_INTERVAL = 1000 ∧ POLL_INCREMENT = 100 ∧
    MIN_POLL_INTERVAL ≤ runPolls i (batches.take k) ∧
    runPolls i (batches.take k) ≤ MAX_POLL_INTERVAL := by
  refine ⟨rfl, rfl, rfl, ?_⟩
  generalize batches.take k = l
  induction l generalizing i with
  | nil => exact ⟨h1, h2⟩
  | cons b bs ih =>
    refine ih (pollTick i b) ?_ ?_ <;>
      unfold pollTick MIN_POLL_INTERVAL MAX_POLL_INTERVAL POLL_INCREMENT at *
    · split
      · omega
      · exact Nat.le_min.mpr ⟨by omega, by omega⟩
    · split
      · omega
      · exact Nat.min_le_right _ _

/-- Witness for C6: start at 100 µs, drain pattern empty/empty/busy, every
prefix of the run. -/
theorem pollInterval_bounded_witness :
    MIN_POLL_INTERVAL = 100 ∧ MAX_POLL_INTERVAL = 1000 ∧ POLL_INCREMENT = 100 ∧
    MIN_POLL_INTERVAL ≤ runPolls 100 ([0, 0, 3, 0].take 2) ∧
    runPolls 100 ([0, 0, 3, 0].take 2) ≤ MAX_POLL_INTERVAL :=
  pollInterval_bounded 100 2 [0, 0, 3, 0] (by decide) (by decide)

/-- Claim C10: in both TUN variants, an unparsable netmask does not fail
set_ip: netmaskToPrefixLength falls back to the default prefix length 24, and
set_ip (device open and named, valid IP, configuration command succeeding)
returns true having used prefix 24. -/
theorem set_ip_defaults_to_slash24 (dev : String) (ip : Nat)
    (hdev : dev ≠ "") :
    TunLinux.netmaskToPrefixLength none = 24 ∧
    TunMacOS.netmaskToPrefixLength none = 24 ∧
    TunLinux.set_ip true dev (some ip) none 0 0 = (true, some 24) ∧
    (TunMacOS.set_ip true dev (some ip) none 0).1 = true ∧
    (TunMacOS.set_ip true dev (some ip) none 0).2.1 = some 24 := by
  refine ⟨rfl, rfl, ?_, ?_, ?_⟩ <;>
    simp [TunLinux.set_ip, TunMacOS.set_ip, hdev,
      TunLinux.netmaskToPrefixLength, TunMacOS.netmaskToPrefixLength]

/-- Claim C5: clearPeers closes the session and fires onUserLeft for every
registered peer and leaves the registry empty; removePeer removes the peer and
emits close-session and onUserLeft exactly when the peer was present. -/
theorem clearPeers_removePeer_contract (m : Manager) (p : Nat)
    (hi : m.hasInterface = true) (hb : m.hasBridge = true) :
    (clearPeers m).1.peers = ∅ ∧
    ((⟨true, .closeSession p⟩ : LEvent) ∈ (clearPeers m).2 ↔ p ∈ m.peers) ∧
    ((⟨true, .userLeft p⟩ : LEvent) ∈ (clearPeers m).2 ↔ p ∈ m.peers) ∧
    (removePeer m p).1.peers = m.peers.erase p ∧
    (removePeer m p).2 =
      (if p ∈ m.peers then
        [⟨true, .closeSession p⟩, ⟨true, .userLeft p⟩] else []) := by
  refine ⟨rfl, ?_, ?_, ?_, ?_⟩
  · simp [clearPeers, hi, hb, List.mem_flatMap, Finset.mem_sort, eq_comm]
  · simp [clearPeers, hi, hb, List.mem_flatMap, Finset.mem_sort, eq_comm]
  · by_cases hp : p ∈ m.peers
    · simp [removePeer, hp]
    · simp [removePeer, hp, Finset.erase_eq_of_not_mem hp]
  · by_cases hp : p ∈ m.peers <;> simp [removePeer, hp, hi, hb]

/-- Witness for C5 at a registry {5, 7} probing peer 5. -/
theorem clearPeers_removePeer_contract_witness :
    (clearPeers ⟨1, {5, 7}, true, true⟩).1.peers = ∅ ∧
    ((⟨true, .closeSession 5⟩ : LEvent) ∈ (clearPeers ⟨1, {5, 7}, true, true⟩).2
      ↔ 5 ∈ ({5, 7} : Finset Nat)) ∧
    ((⟨true, .userLeft 5⟩ : LEvent) ∈ (clearPeers ⟨1, {5, 7}, true, true⟩).2
      ↔ 5 ∈ ({5, 7} : Finset Nat)) ∧
    (removePeer ⟨1, {5, 7}, true, true⟩ 5).1.peers =
      ({5, 7} : Finset Nat).erase 5 ∧
    (removePeer ⟨1, {5, 7}, true, true⟩ 5).2 =
      (if 5 ∈ ({5, 7} : Finset Nat) then
        [⟨true, .closeSession 5⟩, ⟨true, .userLeft 5⟩] else []) :=
  clearPeers_removePeer_contract ⟨1, {5, 7}, true, true⟩ 5 rfl rfl

/-- Claim C7: TunInterface::read returns -1 when the device is not open and on
hard error, 0 on would-block, and on success a positive byte count with the
decoded IP payload; the macOS variant strips the 4-byte protocol-family
prefix. -/
theorem tun_read_contract (size : Nat) (d dm : List Nat) (os : OsRead)
    (hd : d ≠ []) (h4 : 4 < dm.length) (hfit : dm.length ≤ size + 4) :
    TunLinux.read false os = (-1, []) ∧
    TunMacOS.read false size os = (-1, []) ∧
    TunLinux.read true .wouldBlock = (0, []) ∧
    TunMacOS.read true size .wouldBlock = (0, []) ∧
    TunLinux.read true .hardErr = (-1, []) ∧
    TunMacOS.read true size .hardErr = (-1, []) ∧
    TunLinux.read true (.ok d) = ((d.length : Int), d) ∧
    0 < (TunLinux.read true (.ok d)).1 ∧
    TunMacOS.read true size (.ok dm) =
      (((dm.length - 4 : Nat) : Int), dm.drop 4) ∧
    0 < (TunMacOS.read true size (.ok dm)).1 := by
  have hlen : (dm.drop 4).length ≤ size := by
    simp only [List.length_drop]; omega
  have htake : (dm.drop 4).take size = dm.drop 4 :=
    List.take_of_length_le hlen
  have hgt : ¬ (dm.length ≤ 4) := by omega
  refine ⟨rfl, rfl, rfl, rfl, rfl, rfl, rfl, ?_, ?_, ?_⟩
  · simpa [TunLinux.read] using
      Int.ofNat_pos.mpr (List.length_pos.mpr hd)
  · simp [TunMacOS.read, hgt, htake, List.length_drop]
  · simp only [TunMacOS.read, if_true, hgt, if_false, htake,
      List.length_drop]
    exact_mod_cast Nat.sub_pos_of_lt h4

/-- Witness for C7: a 1-byte Linux datagram and a 5-byte macOS datagram with a
100-byte caller buffer, probing the hard-error branch. -/
theorem tun_read_contract_witness :
    TunLinux.read false .hardErr = (-1, []) ∧
    TunMacOS.read false 100 .hardErr = (-1, []) ∧
    TunLinux.read true .wouldBlock = (0, []) ∧
    TunMacOS.read true 100 .wouldBlock = (0, []) ∧
    TunLinux.read true .hardErr = (-1, []) ∧
    TunMacOS.read true 100 .hardErr = (-1, []) ∧
    TunLinux.read true (.ok [9]) =
      (((([9] : List Nat).length : Nat) : Int), [9]) ∧
    0 < (TunLinux.read true (.ok [9])).1 ∧
    TunMacOS.read true 100 (.ok [0, 0, 0, 2, 17]) =
      ((((([0, 0, 0, 2, 17] : List Nat).length - 4 : Nat)) : Int),
        ([0, 0, 0, 2, 17] : List Nat).drop 4) ∧
    0 < (TunMacOS.read true 100 (.ok [0, 0, 0, 2, 17])).1 :=
  tun_read_contract 100 [9] [0, 0, 0, 2, 17] .hardErr
    (by decide) (by decide) (by decide)

/-- Claim C8: the macOS read treats a raw datagram of at most 4 bytes as no
data (returns 0, not an error), and when the decoded payload exceeds the
caller's buffer it is silently truncated to the buffer size — the return value
is the buffer size, not a failure. -/
theorem macos_read_short_or_truncated (size : Nat) (sm lg : List Nat)
    (hshort : sm.length ≤ 4) (hlong : size + 4 < lg.length) :
    TunMacOS.read true size (.ok sm) = (0, []) ∧
    (TunMacOS.read true size (.ok lg)).1 = (size : Int) ∧
    (TunMacOS.read true size (.ok lg)).2 = (lg.drop 4).take size ∧
    (TunMacOS.read true size (.ok lg)).2.length = size := by
  have hgt : ¬ (lg.length ≤ 4) := by omega
  have hmin : min size (lg.length - 4) = size := Nat.min_eq_left (by omega)
  refine ⟨by simp [TunMacOS.read, hshort], ?_, ?_, ?_⟩ <;>
    simp [TunMacOS.read, hgt, List.length_take, List.length_drop, hmin]

/-- Witness for C8: a 3-byte datagram, and a 10-byte datagram read into a
2-byte caller buffer. -/
theorem macos_read_short_or_truncated_witness :
    TunMacOS.read true 2 (.ok [1, 2, 3]) = (0, []) ∧
    (TunMacOS.read true 2 (.ok [0, 0, 0, 2, 9, 8, 7, 6, 5, 4])).1 = (2 : Int) ∧
    (TunMacOS.read true 2 (.ok [0, 0, 0, 2, 9, 8, 7, 6, 5, 4])).2 =
      (([0, 0, 0, 2, 9, 8, 7, 6, 5, 4] : List Nat).drop 4).take 2 ∧
    (TunMacOS.read true 2 (.ok [0, 0, 0, 2, 9, 8, 7, 6, 5, 4])).2.length = 2 :=
  macos_read_short_or_truncated 2 [1, 2, 3] [0, 0, 0, 2, 9, 8, 7, 6, 5, 4]
    (by decide) (by decide)

/-- Claim C9: the macOS write rejects any packet whose size plus the 4-byte
family header exceeds the 65536-byte stack buffer, returning -1 with error
"Packet too large" and passing nothing to the kernel; every frame actually
passed to the kernel fits in 65536 bytes; the family header is AF_INET6 for
version nibble 6 and AF_INET for every other packet (nibble 4 or anything
else). -/
theorem macos_write_rejects_oversize (big rest : List Nat) (b : Nat)
    (os : OsWrite) (hbig : 65536 < big.length + 4)
    (hrest : rest.length + 5 ≤ 65536) :
    TunMacOS.write true big os = (-1, none, some "Packet too large") ∧
    (TunMacOS.write true (b :: rest) os).2.1 =
      some ((if b >>> 4 = 6 then afInet6Bytes else afInetBytes) ++ b :: rest) ∧
    ((TunMacOS.write true (b :: rest) os).2.1.getD []).length ≤ 65536 ∧
    ((TunMacOS.write true big os).2.1.getD []).length ≤ 65536 ∧
    afInetBytes = [0, 0, 0, 2] ∧ afInet6Bytes = [0, 0, 0, 30] := by
  have h1 : TunMacOS.write true big os = (-1, none, some "Packet too large") := by
    simp [TunMacOS.write, hbig]
  have hsz : ¬ (65536 < (b :: rest).length + 4) := by
    simp only [List.length_cons]; omega
  have haf : afHeader (b :: rest) =
      (if b >>> 4 = 6 then afInet6Bytes else afInetBytes) := by
    by_cases h6 : b >>> 4 = 6
    · simp [afHeader, h6]
    · by_cases hv4 : b >>> 4 = 4 <;> simp [afHeader, h6, hv4]
  have hc : ¬ (65536 < rest.length + 1 + 4) := by omega
  have h2 : (TunMacOS.write true (b :: rest) os).2.1 =
      some ((if b >>> 4 = 6 then afInet6Bytes else afInetBytes) ++ b :: rest) := by
    cases os <;> simp [TunMacOS.write, hsz, haf, hc]
  refine ⟨h1, h2, ?_, by simp [h1], rfl, rfl⟩
  rw [h2]
  simp only [Option.getD_some, List.length_append, List.length_cons]
  split <;> simp [afInetBytes, afInet6Bytes] <;> omega

/-- Witness for C9: a 65533-byte packet (rejected) and a 2-byte IPv4 packet
(framed with AF_INET). -/
theorem macos_write_rejects_oversize_witness :
    TunMacOS.write true (List.replicate 65533 0) .wouldBlock =
      (-1, none, some "Packet too large") ∧
    (TunMacOS.write true (69 :: [7]) .wouldBlock).2.1 =
      some ((if 69 >>> 4 = 6 then afInet6Bytes else afInetBytes) ++ 69 :: [7]) ∧
    ((TunMacOS.write true (69 :: [7]) .wouldBlock).2.1.getD []).length ≤ 65536 ∧
    ((TunMacOS.write true (List.replicate 65533 0) .wouldBlock).2.1.getD
      []).length ≤ 65536 ∧
    afInetBytes = [0, 0, 0, 2] ∧ afInet6Bytes = [0, 0, 0, 30] :=
  macos_write_rejects_oversize (List.replicate 65533 0) [7] 69 .wouldBlock
    (by norm_num [List.length_replicate]) (by norm_num)

/-- Witness for C10 on device "tun0" with IP 10.0.0.2. -/
theorem set_ip_defaults_to_slash24_witness :
    TunLinux.netmaskToPrefixLength none = 24 ∧
    TunMacOS.netmaskToPrefixLength none = 24 ∧
    TunLinux.set_ip true "tun0" (some 0x0A000002) none 0 0 = (true, some 24) ∧
    (TunMacOS.set_ip true "tun0" (some 0x0A000002) none 0).1 = true ∧
    (TunMacOS.set_ip true "tun0" (some 0x0A000002) none 0).2.1 = some 24 :=
  set_ip_defaults_to_slash24 "tun0" 0x0A000002 (by decide)
